import Mathlib

/- Shallow embedding of the go-chroma-client library: the client
configuration with its functional options (client.go), resource-path
construction for the tenant/database/collection operations, and the
request dispatcher doRequest together with the HTTPError error type
(types.go). Strings model Go byte strings; the wall clock observed by
time.Now is an abstract Nat parameter. -/

namespace ChromaClient

/-- DefaultTenant is the default tenant name (types.go). -/
def DefaultTenant : String := "default_tenant"

/-- DefaultDatabase is the default database name (types.go). -/
def DefaultDatabase : String := "default_database"

/-- The slice of Go's http.Client that this library configures: the
timeout, in seconds. -/
structure HTTPClient where
  timeoutSeconds : Nat
  deriving DecidableEq

/-- Client is a ChromaDB client (client.go). -/
structure Client where
  baseURL : String
  httpClient : HTTPClient
  tenant : String
  database : String
  deriving DecidableEq

/-- ClientOption is a function that configures a Client (client.go). -/
def ClientOption : Type := Client → Client

/-- Go strings.HasSuffix: whether the reversed suffix starts the reversed
string. -/
def hasSuffix (s sfx : String) : Bool :=
  List.isPrefixOf sfx.data.reverse s.data.reverse

/-- Go strings.TrimSuffix: removes one trailing copy of the suffix when
present, otherwise returns the string unchanged. -/
def trimSuffix (s sfx : String) : String :=
  if hasSuffix s sfx then String.mk (List.take (s.data.length - sfx.data.length) s.data)
  else s

/-- WithBaseURL sets the base URL for the client, stripping a trailing
slash with strings.TrimSuffix (client.go). -/
def WithBaseURL (baseURL : String) : ClientOption :=
  fun c => { c with baseURL := trimSuffix baseURL "/" }

/-- WithHTTPClient sets a custom HTTP client (client.go). -/
def WithHTTPClient (httpClient : HTTPClient) : ClientOption :=
  fun c => { c with httpClient := httpClient }

/-- WithTenant sets the default tenant for the client (client.go). -/
def WithTenant (tenant : String) : ClientOption :=
  fun c => { c with tenant := tenant }

/-- WithDatabase sets the default database for the client (client.go). -/
def WithDatabase (database : String) : ClientOption :=
  fun c => { c with database := database }

/-- NewClient creates a new ChromaDB client: the defaults (base URL
http://localhost:8000, a 30-second transport timeout, DefaultTenant,
DefaultDatabase), then the supplied options applied in order (client.go).
It is a total function: construction cannot fail. -/
def NewClient (opts : List ClientOption) : Client :=
  List.foldl (fun c opt => opt c)
    ⟨"http://localhost:8000", ⟨30⟩, DefaultTenant, DefaultDatabase⟩ opts

/-- The characters Go url.QueryEscape leaves unescaped: ASCII letters,
digits, and the marks minus, underscore, dot, tilde. -/
def isUnreservedQueryChar (c : Char) : Bool :=
  if ('a' ≤ c ∧ c ≤ 'z') ∨ ('A' ≤ c ∧ c ≤ 'Z') ∨ ('0' ≤ c ∧ c ≤ '9')
      ∨ c = '-' ∨ c = '_' ∨ c = '.' ∨ c = '~' then true
  else false

/-- Uppercase hexadecimal digit, as produced by Go percent-encoding. -/
def hexUpperDigit (n : Nat) : Char :=
  if n < 10 then Char.ofNat (48 + n) else Char.ofNat (55 + n)

/-- Percent-encoding of one byte value. -/
def percentEncodeChar (c : Char) : List Char :=
  ['%', hexUpperDigit (c.toNat / 16), hexUpperDigit (c.toNat % 16)]

/-- Go url.QueryEscape on a single character: unreserved characters pass
through, a space becomes a plus sign, everything else is percent-encoded.
Faithful for ASCII input; Go escapes non-ASCII characters byte by byte in
their UTF-8 form, which the ASCII-restricted theorems below never reach. -/
def queryEscapeChar (c : Char) : List Char :=
  if isUnreservedQueryChar c then [c]
  else if c = ' ' then ['+']
  else percentEncodeChar c

/-- url.QueryEscape over a character list. -/
def queryEscapeList : List Char → List Char
  | [] => []
  | c :: rest => queryEscapeChar c ++ queryEscapeList rest

/-- Model of Go url.QueryEscape, the escaping client.go applies to tenant
and database path segments. -/
def queryEscape (s : String) : String :=
  String.mk (queryEscapeList s.data)

/-- Value of one hexadecimal digit character (Go unhex): accepts both
uppercase and lowercase digits. -/
def hexDigitVal (c : Char) : Option Nat :=
  if 48 ≤ c.toNat ∧ c.toNat ≤ 57 then some (c.toNat - 48)
  else if 65 ≤ c.toNat ∧ c.toNat ≤ 70 then some (c.toNat - 55)
  else if 97 ≤ c.toNat ∧ c.toNat ≤ 102 then some (c.toNat - 87)
  else none

/-- Model of Go url.PathUnescape on character lists, the decoding a
standard URL parser applies to one path segment: percent escapes are
decoded, a plus sign stays a plus sign, malformed escapes fail. -/
def pathUnescapeList : List Char → Option (List Char)
  | [] => some []
  | c :: rest =>
    if c = '%' then
      match rest with
      | h1 :: h2 :: rest2 =>
        match hexDigitVal h1, hexDigitVal h2 with
        | some a, some b =>
          Option.map (fun l => Char.ofNat (16 * a + b) :: l) (pathUnescapeList rest2)
        | _, _ => none
      | _ => none
    else Option.map (fun l => c :: l) (pathUnescapeList rest)

/-- Model of Go url.PathUnescape on strings. -/
def pathUnescape (s : String) : Option String :=
  Option.map String.mk (pathUnescapeList s.data)

/-- Splitting a path on slashes, accumulator form. -/
def splitOnSlashAux : List Char → List Char → List String
  | [], acc => [String.mk acc.reverse]
  | c :: rest, acc =>
    if c = '/' then String.mk acc.reverse :: splitOnSlashAux rest []
    else splitOnSlashAux rest (c :: acc)

/-- The raw segments a standard URL parser sees in a path: the text between
consecutive slashes. -/
def splitOnSlash (s : String) : List String :=
  splitOnSlashAux s.data []

/-- The decoded path segments a standard URL parser produces: split on
slashes, then percent-decode each segment. -/
def pathSegments (s : String) : Option (List String) :=
  List.mapM pathUnescape (splitOnSlash s)

/-- The path ListCollections builds (client.go): empty tenant and database
arguments fall back to the client's configured defaults, and both segments
are inserted through url.QueryEscape. -/
def listCollectionsPath (c : Client) (tenant database : String) : String :=
  let t := if tenant = "" then c.tenant else tenant
  let d := if database = "" then c.database else database
  "/api/v2/tenants/" ++ queryEscape t ++ "/databases/" ++ queryEscape d ++ "/collections"

/-- The path GetCollection builds (client.go): tenant and database are
query-escaped, while the collection name is inserted without escaping. -/
def getCollectionPath (c : Client) (name tenant database : String) : String :=
  let t := if tenant = "" then c.tenant else tenant
  let d := if database = "" then c.database else database
  "/api/v2/tenants/" ++ queryEscape t ++ "/databases/" ++ queryEscape d
    ++ "/collections/" ++ name

/-- The path CreateDatabase builds (client.go): the tenant comes from the
variadic argument when one is supplied, and only when no argument is
supplied does the client default apply; the chosen value is then
query-escaped. -/
def createDatabasePath (c : Client) (tenant : List String) : String :=
  let t := match tenant with
    | [] => c.tenant
    | t0 :: _ => t0
  "/api/v2/tenants/" ++ queryEscape t ++ "/databases"

/-- HTTPError represents an HTTP error response (types.go). The
observation time recorded from time.Now is an abstract clock value. -/
structure HTTPError where
  StatusCode : Nat
  Message : String
  Timestamp : Nat
  deriving DecidableEq

/-- The Error method of HTTPError (types.go): it returns the message. -/
def HTTPError.Error (e : HTTPError) : String :=
  e.Message

/-- An HTTP response as observed by doRequest once the body has been fully
read: the status code and the raw body bytes. -/
structure HTTPResponse where
  statusCode : Nat
  body : String
  deriving DecidableEq

/-- The outcome of the single transport invocation in doRequest: the
httpClient.Do call fails, the io.ReadAll of the body fails, or a response
with a fully read body is observed. -/
inductive TransportOutcome where
  | doFailure : TransportOutcome
  | readFailure (statusCode : Nat) : TransportOutcome
  | response (r : HTTPResponse) : TransportOutcome
  deriving DecidableEq

/-- The error classes doRequest can return (client.go): marshal failure,
request-construction failure, transport failure, body-read failure, an API
error carrying an HTTPError, or unmarshal failure. -/
inductive DoErr where
  | marshalFailed : DoErr
  | requestFailed : DoErr
  | doFailed : DoErr
  | readFailed : DoErr
  | api (e : HTTPError) : DoErr
  | unmarshalFailed : DoErr
  deriving DecidableEq

/-- Everything one doRequest call produces: the returned error if any, the
final content of the caller's result slot (none when the caller passed a
nil result pointer), and how many times the transport was invoked. -/
structure DoResult (α : Type) where
  error : Option DoErr
  slot : Option α
  calls : Nat
  deriving DecidableEq

/-- doRequest (client.go), the request dispatcher. Its interactions with
the outside are parameters: bodyMarshal is json.Marshal's outcome on the
request body (none for a nil body), requestOk is whether
http.NewRequestWithContext succeeds, transport is the outcome of the one
httpClient.Do exchange including the body read, slot is the prior content
of the caller's result pointer, decode is json.Unmarshal into the result
type, and now is the clock. The control flow mirrors the source: marshal,
build request, perform it, read the body, classify non-2xx statuses as
HTTPError, then decode only when a result pointer is present and the body
is non-empty. -/
def doRequest {α : Type} (bodyMarshal : Option (Except Unit String)) (requestOk : Bool)
    (transport : TransportOutcome) (slot : Option α) (decode : String → Option α)
    (now : Nat) : DoResult α :=
  match bodyMarshal with
  | some (Except.error _) => ⟨some DoErr.marshalFailed, slot, 0⟩
  | _ =>
    if requestOk then
      match transport with
      | TransportOutcome.doFailure => ⟨some DoErr.doFailed, slot, 1⟩
      | TransportOutcome.readFailure _ => ⟨some DoErr.readFailed, slot, 1⟩
      | TransportOutcome.response r =>
        if r.statusCode < 200 ∨ 300 ≤ r.statusCode then
          ⟨some (DoErr.api ⟨r.statusCode, r.body, now⟩), slot, 1⟩
        else
          match slot with
          | some v0 =>
            if 0 < r.body.length then
              match decode r.body with
              | some v => ⟨none, some v, 1⟩
              | none => ⟨some DoErr.unmarshalFailed, some v0, 1⟩
            else ⟨none, some v0, 1⟩
          | none => ⟨none, none, 1⟩
    else ⟨some DoErr.requestFailed, slot, 0⟩

/-- One JSON single-character escape, as in encoding/json; unicode escapes
are outside the modelled subset. -/
def jsonUnescapeChar (c : Char) : Option Char :=
  if c = '"' then some '"'
  else if c = '\\' then some '\\'
  else if c = '/' then some '/'
  else if c = 'b' then some (Char.ofNat 8)
  else if c = 'f' then some (Char.ofNat 12)
  else if c = 'n' then some '\n'
  else if c = 'r' then some '\r'
  else if c = 't' then some '\t'
  else none

/-- Body of a JSON string literal: consume characters up to the closing
quote, decoding escapes, and return the decoded string with the rest of
the input. -/
def parseJsonStringBody : List Char → String → Option (String × List Char)
  | [], _ => none
  | c :: rest, acc =>
    if c = '"' then some (acc, rest)
    else if c = '\\' then
      match rest with
      | [] => none
      | d :: rest2 =>
        match jsonUnescapeChar d with
        | some e => parseJsonStringBody rest2 (acc.push e)
        | none => none
    else parseJsonStringBody rest (acc.push c)

/-- JSON whitespace, as in encoding/json. -/
def isJsonSpace (c : Char) : Bool :=
  c == ' ' || c == '\t' || c == '\n' || c == '\r'

/-- Model of json.Unmarshal into a string target, the decode shape the
Version operation uses: optional whitespace, one JSON string literal,
optional trailing whitespace. -/
def jsonDecodeString (s : String) : Option String :=
  match s.data.dropWhile isJsonSpace with
  | '"' :: rest =>
    match parseJsonStringBody rest "" with
    | some (v, rem) =>
      if rem.dropWhile isJsonSpace = [] then some v else none
    | none => none
  | _ => none

/-- The URL doRequest hands to http.NewRequestWithContext (client.go):
the client's base URL with the resource path appended. -/
def requestURL (c : Client) (path : String) : String :=
  c.baseURL ++ path

/-- The path the Version operation dispatches to (client.go). -/
def versionPath : String := "/api/v2/version"

/-- Version (client.go): dispatches GET on versionPath with a nil body and
a string result slot initialised to Go's zero value, decoding the response
with json.Unmarshal into a string. -/
def Version (transport : TransportOutcome) (now : Nat) : DoResult String :=
  doRequest none true transport (some "") jsonDecodeString now

/-- Helper: once marshalling and request construction have succeeded and a
response with a status outside the 2xx range has been read, doRequest
returns the corresponding HTTPError and leaves the slot alone. -/
theorem doRequest_api_case {α : Type} (bodyMarshal : Option (Except Unit String))
    (r : HTTPResponse) (slot : Option α) (decode : String → Option α) (now : Nat)
    (hm : bodyMarshal ≠ some (Except.error ()))
    (hs : r.statusCode < 200 ∨ 300 ≤ r.statusCode) :
    doRequest bodyMarshal true (TransportOutcome.response r) slot decode now =
      ⟨some (DoErr.api ⟨r.statusCode, r.body, now⟩), slot, 1⟩ := by
  match bodyMarshal with
  | none =>
    simp only [doRequest, if_true]
    rw [if_pos hs]
  | some (Except.ok s) =>
    simp only [doRequest, if_true]
    rw [if_pos hs]
  | some (Except.error u) =>
    cases u
    exact absurd rfl hm

/-- C1: for every observed HTTP response whose status code is outside
[200,300), doRequest returns an HTTPError whose StatusCode equals exactly
the observed response status, whose Message equals exactly the raw
response body, and whose Timestamp is the observation clock value. -/
theorem doRequest_api_error_exact {α : Type} (bodyMarshal : Option (Except Unit String))
    (r : HTTPResponse) (slot : Option α) (decode : String → Option α) (now : Nat)
    (hm : bodyMarshal ≠ some (Except.error ()))
    (hs : r.statusCode < 200 ∨ 300 ≤ r.statusCode) :
    doRequest bodyMarshal true (TransportOutcome.response r) slot decode now =
      ⟨some (DoErr.api ⟨r.statusCode, r.body, now⟩), slot, 1⟩ :=
  doRequest_api_case bodyMarshal r slot decode now hm hs

/-- C1 witness: observing a 404 whose body is "Collection not found"
produces exactly that HTTPError. -/
theorem doRequest_api_error_exact_witness :
    ((none : Option (Except Unit String)) ≠ some (Except.error ()) ∧
      ((404 : Nat) < 200 ∨ (300 : Nat) ≤ 404)) ∧
    doRequest (α := String) none true
        (TransportOutcome.response ⟨404, "Collection not found"⟩)
        (some "") (fun _ => none) 7 =
      ⟨some (DoErr.api ⟨404, "Collection not found", 7⟩), some "", 1⟩ :=
  ⟨⟨by simp, by decide⟩,
    doRequest_api_error_exact none ⟨404, "Collection not found"⟩ (some "")
      (fun _ => none) 7 (by simp) (by decide)⟩

/-- C2: with a body that marshals (or is nil), a 2xx response with a
non-empty body, and a present result slot, doRequest stores exactly the
decoded value and returns no error; in particular Version against a 200
response whose body is the JSON string "0.4.24" yields "0.4.24" with no
error. -/
theorem doRequest_success_decodes {α : Type} (bodyMarshal : Option (Except Unit String))
    (r : HTTPResponse) (v0 : α) (decode : String → Option α) (v : α) (now : Nat)
    (hm : bodyMarshal ≠ some (Except.error ()))
    (h2 : 200 ≤ r.statusCode) (h3 : r.statusCode < 300)
    (hb : 0 < r.body.length) (hd : decode r.body = some v) :
    doRequest bodyMarshal true (TransportOutcome.response r) (some v0) decode now =
      ⟨none, some v, 1⟩ ∧
    Version (TransportOutcome.response ⟨200, "\"0.4.24\""⟩) now =
      ⟨none, some "0.4.24", 1⟩ := by
  have hs : ¬ (r.statusCode < 200 ∨ 300 ≤ r.statusCode) := by omega
  constructor
  · match bodyMarshal with
    | none =>
      simp only [doRequest, if_true]
      rw [if_neg hs, if_pos hb, hd]
    | some (Except.ok s) =>
      simp only [doRequest, if_true]
      rw [if_neg hs, if_pos hb, hd]
    | some (Except.error u) =>
      cases u
      exact absurd rfl hm
  · rfl

/-- C2 witness: the concrete Version scenario, instantiating the decoding
theorem at the 200 response with body the JSON string "0.4.24". -/
theorem doRequest_success_decodes_witness :
    ((none : Option (Except Unit String)) ≠ some (Except.error ()) ∧
      (200 : Nat) ≤ 200 ∧ (200 : Nat) < 300 ∧
      0 < ("\"0.4.24\"" : String).length ∧
      jsonDecodeString "\"0.4.24\"" = some "0.4.24") ∧
    (doRequest (α := String) none true (TransportOutcome.response ⟨200, "\"0.4.24\""⟩)
        (some "") jsonDecodeString 0 = ⟨none, some "0.4.24", 1⟩ ∧
      Version (TransportOutcome.response ⟨200, "\"0.4.24\""⟩) 0 =
        ⟨none, some "0.4.24", 1⟩) :=
  ⟨⟨by simp, by decide, by decide, by decide, by decide⟩,
    doRequest_success_decodes none ⟨200, "\"0.4.24\""⟩ "" jsonDecodeString "0.4.24" 0
      (by simp) (by decide) (by decide) (by decide) (by decide)⟩

/-- C5: a 2xx response with an empty body and a present result slot skips
decoding: doRequest succeeds with no error and the slot keeps its prior
value. -/
theorem doRequest_empty_body_skips_decode {α : Type} (bodyMarshal : Option (Except Unit String))
    (r : HTTPResponse) (v0 : α) (decode : String → Option α) (now : Nat)
    (hm : bodyMarshal ≠ some (Except.error ()))
    (h2 : 200 ≤ r.statusCode) (h3 : r.statusCode < 300)
    (hb : r.body = "") :
    doRequest bodyMarshal true (TransportOutcome.response r) (some v0) decode now =
      ⟨none, some v0, 1⟩ := by
  have hs : ¬ (r.statusCode < 200 ∨ 300 ≤ r.statusCode) := by omega
  have hlen : ¬ 0 < r.body.length := by rw [hb]; decide
  match bodyMarshal with
  | none =>
    simp only [doRequest, if_true]
    rw [if_neg hs, if_neg hlen]
  | some (Except.ok s) =>
    simp only [doRequest, if_true]
    rw [if_neg hs, if_neg hlen]
  | some (Except.error u) =>
    cases u
    exact absurd rfl hm

/-- C5 witness: a 204-style empty 200 response leaves the slot at its
prior value with no error. -/
theorem doRequest_empty_body_skips_decode_witness :
    ((none : Option (Except Unit String)) ≠ some (Except.error ()) ∧
      (200 : Nat) ≤ 200 ∧ (200 : Nat) < 300 ∧
      (⟨200, ""⟩ : HTTPResponse).body = "") ∧
    doRequest (α := String) none true (TransportOutcome.response ⟨200, ""⟩)
        (some "prior") (fun _ => none) 0 = ⟨none, some "prior", 1⟩ :=
  ⟨⟨by simp, by decide, by decide, by decide⟩,
    doRequest_empty_body_skips_decode none ⟨200, ""⟩ "prior" (fun _ => none) 0
      (by simp) (by decide) (by decide) (by decide)⟩

/-- C9: whenever doRequest classifies the response as an API error (status
outside [200,300)), the caller's result slot is never written: it keeps
exactly the value it held before the call. -/
theorem doRequest_error_preserves_slot {α : Type} (bodyMarshal : Option (Except Unit String))
    (r : HTTPResponse) (slot : Option α) (decode : String → Option α) (now : Nat)
    (hm : bodyMarshal ≠ some (Except.error ()))
    (hs : r.statusCode < 200 ∨ 300 ≤ r.statusCode) :
    (doRequest bodyMarshal true (TransportOutcome.response r) slot decode now).slot =
      slot := by
  rw [doRequest_api_case bodyMarshal r slot decode now hm hs]

/-- C9 witness: a 500 response leaves the slot holding its prior value. -/
theorem doRequest_error_preserves_slot_witness :
    ((none : Option (Except Unit String)) ≠ some (Except.error ()) ∧
      ((500 : Nat) < 200 ∨ (300 : Nat) ≤ 500)) ∧
    (doRequest (α := String) none true (TransportOutcome.response ⟨500, "boom"⟩)
        (some "prior") (fun _ => some "clobbered") 0).slot = some "prior" :=
  ⟨⟨by simp, by decide⟩,
    doRequest_error_preserves_slot none ⟨500, "boom"⟩ (some "prior")
      (fun _ => some "clobbered") 0 (by simp) (by decide)⟩

/-- C8 counterexample: when the body fails to marshal, doRequest returns
before ever invoking the transport, so zero round trips are performed, not
one. -/
theorem marshal_failure_no_roundtrip_cex :
    (doRequest (α := String) (some (Except.error ())) true
        (TransportOutcome.response ⟨200, ""⟩) none (fun _ => none) 0).calls = 0 ∧
    ¬ (doRequest (α := String) (some (Except.error ())) true
        (TransportOutcome.response ⟨200, ""⟩) none (fun _ => none) 0).calls = 1 :=
  ⟨by decide, by decide⟩

/-- C8 amended: when the body marshals (or is nil) and the request is
constructed, the transport is invoked exactly once, whatever the exchange
outcome or status — no retries; when marshalling fails, the transport is
never invoked. -/
theorem single_roundtrip_amended {α : Type} (bodyMarshal : Option (Except Unit String))
    (transport : TransportOutcome) (slot : Option α) (decode : String → Option α)
    (now : Nat) (hm : bodyMarshal ≠ some (Except.error ())) :
    (doRequest bodyMarshal true transport slot decode now).calls = 1 ∧
    (doRequest (α := α) (some (Except.error ())) true transport slot decode now).calls = 0 := by
  constructor
  · match bodyMarshal with
    | none =>
      cases transport with
      | doFailure => rfl
      | readFailure st => rfl
      | response r =>
        simp only [doRequest, if_true]
        by_cases hs : r.statusCode < 200 ∨ 300 ≤ r.statusCode
        · rw [if_pos hs]
        · rw [if_neg hs]
          cases slot with
          | none => rfl
          | some v0 =>
            cases hd : decode r.body with
            | none => by_cases hb : 0 < r.body.length <;> simp [hb, hd]
            | some v => by_cases hb : 0 < r.body.length <;> simp [hb, hd]
    | some (Except.ok s) =>
      cases transport with
      | doFailure => rfl
      | readFailure st => rfl
      | response r =>
        simp only [doRequest, if_true]
        by_cases hs : r.statusCode < 200 ∨ 300 ≤ r.statusCode
        · rw [if_pos hs]
        · rw [if_neg hs]
          cases slot with
          | none => rfl
          | some v0 =>
            cases hd : decode r.body with
            | none => by_cases hb : 0 < r.body.length <;> simp [hb, hd]
            | some v => by_cases hb : 0 < r.body.length <;> simp [hb, hd]
    | some (Except.error u) =>
      cases u
      exact absurd rfl hm
  · rfl

/-- C8 witness: with a nil body and a successful 200 exchange the transport
is invoked exactly once, and with a failing marshal it is never invoked. -/
theorem single_roundtrip_amended_witness :
    ((none : Option (Except Unit String)) ≠ some (Except.error ())) ∧
    ((doRequest (α := String) none true (TransportOutcome.response ⟨200, ""⟩)
        none (fun _ => none) 0).calls = 1 ∧
      (doRequest (α := String) (some (Except.error ())) true
        (TransportOutcome.response ⟨200, ""⟩) none (fun _ => none) 0).calls = 0) :=
  ⟨by simp,
    single_roundtrip_amended none (TransportOutcome.response ⟨200, ""⟩) none
      (fun _ => none) 0 (by simp)⟩

/-- C10: the Error method of HTTPError returns exactly the Message field;
the status code and timestamp never influence the error string, so two
errors with the same message have the same error string whatever their
status codes and timestamps. -/
theorem httpError_error_is_message :
    (∀ e : HTTPError, HTTPError.Error e = e.Message) ∧
    (∀ (s1 s2 t1 t2 : Nat) (m : String),
      HTTPError.Error ⟨s1, m, t1⟩ = HTTPError.Error ⟨s2, m, t2⟩) :=
  ⟨fun _ => rfl, fun _ _ _ _ _ => rfl⟩

/-- C7: construction cannot fail and with no options yields base address
http://localhost:8000, tenant default_tenant, database default_database
and a 30-second transport timeout; options are applied in the order
supplied, and for two options targeting the same field the later one
wins. -/
theorem newClient_defaults_and_option_order :
    (NewClient [] = ⟨"http://localhost:8000", ⟨30⟩, "default_tenant", "default_database"⟩) ∧
    (∀ (opts : List ClientOption) (o : ClientOption),
      NewClient (opts ++ [o]) = o (NewClient opts)) ∧
    (∀ (c : Client) (t1 t2 : String), WithTenant t2 (WithTenant t1 c) = WithTenant t2 c) ∧
    (∀ (c : Client) (d1 d2 : String), WithDatabase d2 (WithDatabase d1 c) = WithDatabase d2 c) ∧
    (∀ (c : Client) (u1 u2 : String), WithBaseURL u2 (WithBaseURL u1 c) = WithBaseURL u2 c) ∧
    (∀ (c : Client) (h1 h2 : HTTPClient),
      WithHTTPClient h2 (WithHTTPClient h1 c) = WithHTTPClient h2 c) := by
  refine ⟨rfl, ?_, fun c t1 t2 => rfl, fun c d1 d2 => rfl, fun c u1 u2 => rfl,
    fun c h1 h2 => rfl⟩
  intro opts o
  simp [NewClient, List.foldl_append]

/-- C4 counterexample: CreateDatabase called with an explicit empty tenant
string does not substitute the configured default — the resolved path
carries a literal empty segment between tenants and databases. -/
theorem createDatabase_empty_tenant_cex :
    createDatabasePath (NewClient []) [""] = "/api/v2/tenants//databases" ∧
    splitOnSlash (createDatabasePath (NewClient []) [""]) =
      ["", "api", "v2", "tenants", "", "databases"] ∧
    (NewClient []).tenant = "default_tenant" ∧
    ¬ "default_tenant" ∈ splitOnSlash (createDatabasePath (NewClient []) [""]) :=
  ⟨by decide, by decide, by decide, by decide⟩

/-- C4 amended: operations that take tenant and database as plain string
parameters (ListCollections, GetCollection and their kin) substitute the
client defaults for empty strings at path resolution, so passing an empty
string is the same as passing the configured default explicitly; the
variadic operations (CreateDatabase, GetDatabase) substitute the default
only when no argument is supplied, and insert an explicitly supplied
value — even the empty string — verbatim. -/
theorem empty_scoping_defaults_amended :
    (∀ (c : Client) (d : String),
      listCollectionsPath c "" d = listCollectionsPath c c.tenant d) ∧
    (∀ (c : Client) (t : String),
      listCollectionsPath c t "" = listCollectionsPath c t c.database) ∧
    (∀ (c : Client) (nm d : String),
      getCollectionPath c nm "" d = getCollectionPath c nm c.tenant d) ∧
    (∀ (c : Client) (nm t : String),
      getCollectionPath c nm t "" = getCollectionPath c nm t c.database) ∧
    (∀ c : Client, createDatabasePath c [] = createDatabasePath c [c.tenant]) ∧
    (∀ (c : Client) (t : String),
      createDatabasePath c [t] = "/api/v2/tenants/" ++ queryEscape t ++ "/databases") := by
  refine ⟨?_, ?_, ?_, ?_, fun c => rfl, fun c t => rfl⟩
  · intro c d
    simp [listCollectionsPath]
  · intro c t
    simp [listCollectionsPath]
  · intro c nm d
    simp [getCollectionPath]
  · intro c nm t
    simp [getCollectionPath]

/-- C3 counterexample: GetCollection inserts the collection name without
escaping, so the name "a/b" yields a path whose parsed segment list never
reproduces the original name — it is split into "a" and "b". -/
theorem getCollection_name_not_escaped_cex :
    getCollectionPath (NewClient []) "a/b" "t" "d" =
      "/api/v2/tenants/t/databases/d/collections/a/b" ∧
    pathSegments (getCollectionPath (NewClient []) "a/b" "t" "d") =
      some ["", "api", "v2", "tenants", "t", "databases", "d", "collections", "a", "b"] ∧
    ¬ "a/b" ∈ ["", "api", "v2", "tenants", "t", "databases", "d", "collections", "a", "b"] :=
  ⟨by decide, by decide, by decide⟩

/-- Helper: a digit emitted by hexUpperDigit decodes back to its value. -/
theorem hexDigitVal_hexUpperDigit (n : Nat) (h : n < 16) :
    hexDigitVal (hexUpperDigit n) = some n := by
  interval_cases n <;> decide

/-- Helper: characters url.QueryEscape leaves unescaped are not the
percent sign. -/
theorem unreserved_ne_percent {c : Char} (h : isUnreservedQueryChar c = true) :
    ¬ c = '%' := by
  intro hc
  subst hc
  exact absurd h (by decide)

/-- Helper: characters url.QueryEscape leaves unescaped are not the
slash. -/
theorem unreserved_ne_slash {c : Char} (h : isUnreservedQueryChar c = true) :
    ¬ c = '/' := by
  intro hc
  subst hc
  exact absurd h (by decide)

/-- Helper: a hexadecimal digit character is never a slash. -/
theorem hexUpperDigit_ne_slash (n : Nat) (h : n < 16) :
    ¬ hexUpperDigit n = '/' := by
  interval_cases n <;> decide

/-- Helper: query-escaping then path-unescaping is the identity on ASCII
character lists that contain no space. -/
theorem pathUnescapeList_queryEscapeList (l : List Char)
    (hall : ∀ c ∈ l, c.toNat < 128) (hsp : ∀ c ∈ l, ¬ c = ' ') :
    pathUnescapeList (queryEscapeList l) = some l := by
  induction l with
  | nil => rfl
  | cons c rest ih =>
    have hc : c.toNat < 128 := hall c (by simp)
    have hcs : ¬ c = ' ' := hsp c (by simp)
    have ihh := ih (fun x hx => hall x (by simp [hx])) (fun x hx => hsp x (by simp [hx]))
    show pathUnescapeList (queryEscapeChar c ++ queryEscapeList rest) = some (c :: rest)
    by_cases hu : isUnreservedQueryChar c = true
    · have h1 : queryEscapeChar c = [c] := by simp [queryEscapeChar, hu]
      rw [h1]
      have hne : ¬ c = '%' := unreserved_ne_percent hu
      rw [pathUnescapeList.eq_def]
      simp [hne, ihh]
    · have h1 : queryEscapeChar c = percentEncodeChar c := by
        simp [queryEscapeChar, hu, hcs]
      rw [h1]
      have ha : c.toNat / 16 < 16 := by omega
      have hb2 : c.toNat % 16 < 16 := Nat.mod_lt _ (by norm_num)
      show pathUnescapeList ('%' :: hexUpperDigit (c.toNat / 16) ::
          hexUpperDigit (c.toNat % 16) :: queryEscapeList rest) = some (c :: rest)
      simp [pathUnescapeList, hexDigitVal_hexUpperDigit _ ha,
        hexDigitVal_hexUpperDigit _ hb2, ihh, Nat.div_add_mod, Char.ofNat_toNat]

/-- Helper: a query-escaped ASCII list never contains a slash, so the
escaped segment introduces no segment boundary. -/
theorem slash_not_mem_queryEscapeList (l : List Char)
    (hall : ∀ c ∈ l, c.toNat < 128) :
    ¬ '/' ∈ queryEscapeList l := by
  induction l with
  | nil => simp [queryEscapeList]
  | cons c rest ih =>
    have hc : c.toNat < 128 := hall c (by simp)
    have ihh := ih (fun x hx => hall x (by simp [hx]))
    show ¬ '/' ∈ queryEscapeChar c ++ queryEscapeList rest
    rw [List.mem_append]
    rintro (h1 | h2)
    · by_cases hu : isUnreservedQueryChar c = true
      · rw [show queryEscapeChar c = [c] from by simp [queryEscapeChar, hu]] at h1
        simp at h1
        exact unreserved_ne_slash hu h1.symm
      · by_cases hsp : c = ' '
        · rw [show queryEscapeChar c = ['+'] from by rw [hsp]; decide] at h1
          simp at h1
        · rw [show queryEscapeChar c = percentEncodeChar c from by
            simp [queryEscapeChar, hu, hsp]] at h1
          have ha : c.toNat / 16 < 16 := by omega
          have hb2 : c.toNat % 16 < 16 := Nat.mod_lt _ (by norm_num)
          simp only [percentEncodeChar, List.mem_cons, List.not_mem_nil, or_false] at h1
          rcases h1 with h1 | h1 | h1
          · exact absurd h1 (by decide)
          · exact hexUpperDigit_ne_slash _ ha h1.symm
          · exact hexUpperDigit_ne_slash _ hb2 h1.symm
    · exact ihh h2

/-- C3 amended: the tenant and database segments are query-escaped before
insertion, so for ASCII names containing no space (slashes allowed) the
inserted segment contains no slash and path-unescaping recovers the
original name exactly; a name containing a space becomes a plus sign and
does not round-trip, and the collection name is inserted with no escaping
at all (see the counterexample). -/
theorem queryEscaped_segments_roundtrip (c : Client) (t d : String)
    (htne : ¬ t = "") (hdne : ¬ d = "")
    (ht1 : ∀ ch ∈ t.data, ch.toNat < 128) (ht2 : ∀ ch ∈ t.data, ¬ ch = ' ')
    (hd1 : ∀ ch ∈ d.data, ch.toNat < 128) (hd2 : ∀ ch ∈ d.data, ¬ ch = ' ') :
    listCollectionsPath c t d =
      "/api/v2/tenants/" ++ queryEscape t ++ "/databases/" ++ queryEscape d
        ++ "/collections" ∧
    pathUnescape (queryEscape t) = some t ∧ ¬ '/' ∈ (queryEscape t).data ∧
    pathUnescape (queryEscape d) = some d ∧ ¬ '/' ∈ (queryEscape d).data := by
  refine ⟨?_, ?_, ?_, ?_, ?_⟩
  · simp [listCollectionsPath, htne, hdne]
  · show Option.map String.mk (pathUnescapeList (queryEscapeList t.data)) = some t
    rw [pathUnescapeList_queryEscapeList t.data ht1 ht2]
    rfl
  · exact slash_not_mem_queryEscapeList t.data ht1
  · show Option.map String.mk (pathUnescapeList (queryEscapeList d.data)) = some d
    rw [pathUnescapeList_queryEscapeList d.data hd1 hd2]
    rfl
  · exact slash_not_mem_queryEscapeList d.data hd1

/-- C3 amended witness: the tenant "a/b" (a slash inside a name) and the
database "x" round-trip through escaping; the escaped tenant holds no raw
slash. -/
theorem queryEscaped_segments_roundtrip_witness :
    (¬ ("a/b" : String) = "" ∧ ¬ ("x" : String) = "" ∧
      (∀ ch ∈ ("a/b" : String).data, ch.toNat < 128) ∧
      (∀ ch ∈ ("a/b" : String).data, ¬ ch = ' ') ∧
      (∀ ch ∈ ("x" : String).data, ch.toNat < 128) ∧
      (∀ ch ∈ ("x" : String).data, ¬ ch = ' ')) ∧
    (listCollectionsPath (NewClient []) "a/b" "x" =
      "/api/v2/tenants/" ++ queryEscape "a/b" ++ "/databases/" ++ queryEscape "x"
        ++ "/collections" ∧
    pathUnescape (queryEscape "a/b") = some "a/b" ∧
      ¬ '/' ∈ (queryEscape "a/b").data ∧
    pathUnescape (queryEscape "x") = some "x" ∧ ¬ '/' ∈ (queryEscape "x").data) :=
  ⟨⟨by decide, by decide, by decide, by decide, by decide, by decide⟩,
    queryEscaped_segments_roundtrip (NewClient []) "a/b" "x" (by decide) (by decide)
      (by decide) (by decide) (by decide) (by decide)⟩

/-- C6 counterexample: constructing a client whose base address ends in two
slashes stores a base address that still ends in a slash — the trailing
slash invariant fails. -/
theorem baseURL_double_slash_cex :
    (NewClient [WithBaseURL "http://example.com//"]).baseURL = "http://example.com/" ∧
    hasSuffix (NewClient [WithBaseURL "http://example.com//"]).baseURL "/" = true :=
  ⟨by decide, by decide⟩

/-- Helper: stripping one trailing slash leaves no trailing slash unless
the string ended in two slashes. -/
theorem trimSuffix_slash_no_trailing (s : String) (h2 : hasSuffix s "//" = false) :
    hasSuffix (trimSuffix s "/") "/" = false := by
  by_cases h1 : hasSuffix s "/" = true
  · have hlen1 : ("/" : String).data.length = 1 := by decide
    have htrim : trimSuffix s "/" = String.mk (List.take (s.data.length - 1) s.data) := by
      unfold trimSuffix
      rw [if_pos h1, hlen1]
    rcases hr : s.data.reverse with _ | ⟨c, tl⟩
    · exact absurd h1 (by unfold hasSuffix; rw [hr]; decide)
    · have hc : c = '/' := by
        unfold hasSuffix at h1
        rw [hr] at h1
        simp [List.isPrefixOf] at h1
        exact h1.symm
      subst hc
      have h3 : List.isPrefixOf ['/'] tl = false := by
        unfold hasSuffix at h2
        rw [hr] at h2
        simpa [List.isPrefixOf] using h2
      rw [htrim]
      show List.isPrefixOf ['/'] ((List.take (s.data.length - 1) s.data).reverse) = false
      rw [← List.dropLast_eq_take, ← List.tail_reverse_eq_reverse_dropLast, hr]
      exact h3
  · have h1f : hasSuffix s "/" = false := by
      cases hv : hasSuffix s "/" with
      | false => rfl
      | true => exact absurd hv h1
    unfold trimSuffix
    rw [if_neg (by rw [h1f]; decide)]
    exact h1f

/-- C6 amended: construction strips exactly one trailing slash, so the
stored base address has no trailing slash whenever the supplied address
does not end in a double slash; every constructed request URL is the
stored base address with the path appended, and the concrete address
"http://example.com/" normalizes to "http://example.com". -/
theorem baseURL_trim_amended (s p : String) (h2 : hasSuffix s "//" = false) :
    hasSuffix (NewClient [WithBaseURL s]).baseURL "/" = false ∧
    requestURL (NewClient [WithBaseURL s]) p =
      (NewClient [WithBaseURL s]).baseURL ++ p ∧
    (NewClient [WithBaseURL "http://example.com/"]).baseURL = "http://example.com" := by
  refine ⟨?_, rfl, by decide⟩
  show hasSuffix (trimSuffix s "/") "/" = false
  exact trimSuffix_slash_no_trailing s h2

/-- C6 amended witness: the concrete address "http://example.com/" has no
double slash at the end and normalizes to "http://example.com". -/
theorem baseURL_trim_amended_witness :
    hasSuffix "http://example.com/" "//" = false ∧
    (hasSuffix (NewClient [WithBaseURL "http://example.com/"]).baseURL "/" = false ∧
      requestURL (NewClient [WithBaseURL "http://example.com/"]) "/api/v2/version" =
        (NewClient [WithBaseURL "http://example.com/"]).baseURL ++ "/api/v2/version" ∧
      (NewClient [WithBaseURL "http://example.com/"]).baseURL = "http://example.com") :=
  ⟨by decide, baseURL_trim_amended "http://example.com/" "/api/v2/version" (by decide)⟩

end ChromaClient
